import Mathlib

/-!
Verification of the wasm-squeeze module-rewriting engine (`src/main.rs`)
against its specification, over a shallow embedding of the relevant code.

Conventions of the embedding:
* Machine integers are modelled as `Nat`/`Int`.  The source's `i32` offsets
  become `Int`, byte values and lengths become `Nat`.
* `anyhow` errors become the `BuildErr` enumeration (the spec's error
  taxonomy); fallible code returns `Except BuildErr _`.
* The constant `common::CONTEXT_SIZE` lives in the `common` crate, outside
  the sources at hand, so it is kept as an explicit parameter `ctxSize`
  wherever the code reads it (`COMPRESSED_DATA_OFFSET = CONTEXT_SIZE`).
* The external compression primitive `upkr::pack` and the decompressor blob
  `upkr_unpacker.wasm` are external collaborators; the packed bytes are a
  parameter, and the decompressor call is modelled from the spec (see
  `runOp`).
-/

/-- `MEM_SIZE` from `main.rs`: one WebAssembly page, `0x10000` bytes. -/
def MEM_SIZE : Nat := 0x10000

/-- `CONTEXT_OFFSET` from `main.rs`. -/
def CONTEXT_OFFSET : Nat := 0

/-- `PALETTE_OFFSET` from `main.rs`. -/
def PALETTE_OFFSET : Nat := 4

/-- `PALETTE_DEFAULT` from `main.rs` (two `i64` constants, both positive). -/
def PALETTE_DEFAULT : List Nat := [0x0086c06c00e0f8cf, 0x0007182100306850]

/-- `DRAW_COLORS_DEFAULT` from `main.rs` (an `i16`, stored as 16 bits). -/
def DRAW_COLORS_DEFAULT : Nat := 0x1203

/-- `DRAW_COLORS_OFFSET` from `main.rs`. -/
def DRAW_COLORS_OFFSET : Nat := 0x14

/-- `MOUSE_XY_DEFAULT` from `main.rs` (an `i32`, positive). -/
def MOUSE_XY_DEFAULT : Nat := 0x7fff7fff

/-- `MOUSE_XY_OFFSET` from `main.rs`. -/
def MOUSE_XY_OFFSET : Nat := 0x1a

/-- The error taxonomy of `main.rs` (the source uses `anyhow` messages; the
names follow the spec's error kinds).  `i32Panic` is not an `anyhow` error
but a process abort: it marks the outcomes where the source panics in the
merge loop's `(data.offset - output_data.offset) as usize` path (see
`mergeFold`); it is carried as a distinguished value so that the merge's
behaviour at such inputs can be stated. -/
inductive BuildErr where
  | noData
  | multipleSections
  | importsAfterFunctions
  | unsupported
  | unsupportedOffset
  | overlap
  | noFunctionSection
  | noTypeSection
  | i32Panic
deriving DecidableEq, Repr

/-- `Data<Vec<u8>>` from `main.rs`: a linear-memory offset (`i32`) plus the
owned bytes. -/
structure DataRec where
  offset : Int
  data : List Nat
deriving DecidableEq, Repr

/-- A constant-expression operator, as far as `eval_i32` inspects it
(`wp::Operator::I32Const`, `wp::Operator::End`, anything else). -/
inductive COp where
  | i32const (v : Int)
  | endOp
  | otherOp
deriving DecidableEq, Repr

/-- `eval_i32` from `main.rs`: the offset expression must read as exactly one
`I32Const` followed by `End`; the reader yields operators in order, and the
code reads exactly two of them. -/
def eval_i32 (ops : List COp) : Except BuildErr Int :=
  match ops with
  | COp.i32const v :: rest =>
    match rest with
    | COp.endOp :: _ => Except.ok v
    | _ => Except.error BuildErr.unsupportedOffset
  | _ => Except.error BuildErr.unsupportedOffset

/-- The kind of a parsed data segment (`wp::DataKind`). -/
inductive DataSegKind where
  | activeSeg (memory_index : Nat) (offset_expr : List COp)
  | passiveSeg
deriving DecidableEq, Repr

/-- A parsed data segment: its kind and its payload bytes (the source records
the byte range in the input and re-reads it later; the embedding carries the
bytes directly). -/
structure DataSegPayload where
  kind : DataSegKind
  seg_bytes : List Nat
deriving DecidableEq, Repr

/-- The body of the `wp::Payload::DataSection` loop in
`RelevantInfoBuilder::add_payload`: a non-active segment is skipped by
`continue`; an active segment must target memory 0, its offset expression is
evaluated by `eval_i32`, and the segment is pushed onto the accumulated
list. -/
def add_data_segment (acc : List DataRec) (seg : DataSegPayload) :
    Except BuildErr (List DataRec) :=
  match seg.kind with
  | DataSegKind.passiveSeg => Except.ok acc
  | DataSegKind.activeSeg memory_index offset_expr =>
    if memory_index ≠ 0 then Except.error BuildErr.unsupported
    else
      match eval_i32 offset_expr with
      | Except.error e => Except.error e
      | Except.ok off => Except.ok (acc ++ [⟨off, seg.seg_bytes⟩])

/-- An import's type (`wp::TypeRef`), as far as the code inspects it. -/
inductive ImportRef where
  | funcRef (ty : Nat)
  | otherRef
deriving DecidableEq, Repr

/-- The function-import counting loop of the `ImportSection` arm. -/
def count_function_imports : List ImportRef → Nat
  | [] => 0
  | ImportRef.funcRef _ :: rest => count_function_imports rest + 1
  | ImportRef.otherRef :: rest => count_function_imports rest

/-- A declared global (`wp::Global`), as far as the spec's description of the
builder would inspect it: mutability, whether the value type is `i32`, and
the initial value. -/
structure GlobalRec where
  g_mutable : Bool
  g_is_i32 : Bool
  g_init : Int
deriving DecidableEq, Repr

/-- The payloads `RelevantInfoBuilder::add_payload` matches on.  `wasmparser`
also yields a `GlobalSection` payload; in the source it falls into the
wildcard arm (`_ => {}`), so it is carried here explicitly to settle what the
builder does with it.  Every other payload kind is `otherPayload`. -/
inductive Payload where
  | dataCountSection (count : Nat) (range_start range_stop : Nat)
  | dataSection (segs : List DataSegPayload)
  | importSection (imports : List ImportRef)
  | functionSection (type_indices : List Nat)
  | typeSection (count : Nat)
  | startSection (func : Nat)
  | globalSection (globals : List GlobalRec)
  | otherPayload
deriving DecidableEq, Repr

/-- `RelevantInfoBuilder` from `main.rs`. -/
structure RelevantInfoBuilder where
  start_fn_idx : Option Nat
  data : List DataRec
  old_functions : Option (List Nat)
  old_type_count : Option Nat
  import_function_count : Option Nat
  data_count_range : Option (Nat × Nat)
deriving DecidableEq, Repr

/-- `RelevantInfoBuilder::new`. -/
def RelevantInfoBuilder.new : RelevantInfoBuilder :=
  ⟨none, [], none, none, none, none⟩

/-- `RelevantInfoBuilder::add_payload` from `main.rs`, arm by arm.  Each
`anyhow::ensure!` becomes an error return; the wildcard arm (which receives,
among others, the Global section) returns the state unchanged. -/
def add_payload (st : RelevantInfoBuilder) (p : Payload) :
    Except BuildErr RelevantInfoBuilder :=
  match p with
  | Payload.dataCountSection count range_start range_stop =>
    if count ≠ 1 then
      if st.data_count_range ≠ none then Except.error BuildErr.multipleSections
      else Except.ok { st with data_count_range := some (range_start, range_stop) }
    else Except.ok st
  | Payload.dataSection segs =>
    if st.data ≠ [] then Except.error BuildErr.multipleSections
    else
      match segs.foldlM add_data_segment st.data with
      | Except.error e => Except.error e
      | Except.ok ds => Except.ok { st with data := ds }
  | Payload.importSection imports =>
    if st.import_function_count ≠ none then Except.error BuildErr.multipleSections
    else if st.old_functions ≠ none then Except.error BuildErr.importsAfterFunctions
    else Except.ok { st with import_function_count := some (count_function_imports imports) }
  | Payload.functionSection type_indices =>
    if st.old_functions ≠ none then Except.error BuildErr.multipleSections
    else Except.ok { st with old_functions := some type_indices }
  | Payload.typeSection count =>
    if st.old_type_count ≠ none then Except.error BuildErr.multipleSections
    else Except.ok { st with old_type_count := some count }
  | Payload.startSection func =>
    if st.start_fn_idx ≠ none then Except.error BuildErr.multipleSections
    else Except.ok { st with start_fn_idx := some func }
  | Payload.globalSection _ => Except.ok st
  | Payload.otherPayload => Except.ok st

/-- The comparison key of `self.data.sort_unstable_by_key(|d| d.offset)`. -/
def segLE (a b : DataRec) : Prop := a.offset ≤ b.offset

instance : DecidableRel segLE := fun a b =>
  inferInstanceAs (Decidable (a.offset ≤ b.offset))

instance : IsTotal DataRec segLE := ⟨fun a b => Int.le_total a.offset b.offset⟩

instance : IsTrans DataRec segLE := ⟨fun _ _ _ h h' => le_trans h h'⟩

/-- The sort step of `RelevantInfoBuilder::build`
(`sort_unstable_by_key(|d| d.offset)`). -/
def sortSegs (segs : List DataRec) : List DataRec :=
  List.insertionSort segLE segs

/-- The merge loop of `RelevantInfoBuilder::build`, after the first segment
has seeded the accumulator.  For each later segment the source computes
`new_len = (data.offset - output_data.offset) as usize` — an `i32`
subtraction followed by a sign-extending cast, which equals the exact
difference only when `0 ≤ diff < 2^31`; the accumulated image must then not
extend past it (`ensure!(output_data.data.len() <= new_len, "data sections
overlap")`), is zero-padded to `new_len` (`resize(new_len, 0)`) and
extended with the segment's bytes (`extend_from_slice`).  Outside the
`[0, 2^31)` window the program panics instead of returning: for
`diff ≥ 2^31` a debug build overflows in the subtraction, and a release
build wraps to a negative `i32` whose cast sign-extends to a `usize` near
`2^64`, so `Vec::resize` aborts with a capacity overflow; for
`diff ∈ [-2^31, 0)` the cast likewise yields a huge `usize` and `resize`
aborts (negative differences cannot arise here, since the caller sorts by
offset, and a wrap-around below `-2^31` would need exactly such a negative
difference).  These aborts are the `i32Panic` outcome. -/
def mergeFold (off : Int) (acc : List Nat) : List DataRec → Except BuildErr (List Nat)
  | [] => Except.ok acc
  | s :: rest =>
    if 0 ≤ s.offset - off ∧ s.offset - off < 2 ^ 31 then
      let new_len := (s.offset - off).toNat
      if acc.length ≤ new_len then
        mergeFold off ((acc ++ List.replicate (new_len - acc.length) 0) ++ s.data) rest
      else Except.error BuildErr.overlap
    else Except.error BuildErr.i32Panic

/-- The whole merge of `RelevantInfoBuilder::build` over an already sorted
segment list: the first segment seeds the accumulator and fixes the image's
offset. -/
def mergeSorted : List DataRec → Except BuildErr DataRec
  | [] => Except.error BuildErr.noData
  | first :: rest =>
    match mergeFold first.offset first.data rest with
    | Except.error e => Except.error e
    | Except.ok bytes => Except.ok ⟨first.offset, bytes⟩

/-- Sort then merge: the data-merging part of `RelevantInfoBuilder::build`. -/
def mergeSegs (segs : List DataRec) : Except BuildErr DataRec :=
  mergeSorted (sortSegs segs)

/-- `RelevantInfo` from `main.rs`. -/
structure RelevantInfo where
  start_fn_idx : Option Nat
  data : DataRec
  old_function_count : Nat
  old_type_count : Nat
  import_function_count : Nat
deriving DecidableEq, Repr

/-- `RelevantInfoBuilder::build` from `main.rs`: `NoData` when no segment was
recorded; otherwise sort and merge the segments (the in-place data-count
mitigation touches only the returned input bytes, not the info record, and is
not modelled); then `old_functions` is required (`context("no function
section encountered")`), then `old_type_count` (`context("no type section was
found")`), while a missing `import_function_count` falls back to 0
(`unwrap_or(0)`). -/
def RelevantInfoBuilder.build (st : RelevantInfoBuilder) : Except BuildErr RelevantInfo :=
  match st.data with
  | [] => Except.error BuildErr.noData
  | _ :: _ =>
    match mergeSegs st.data with
    | Except.error e => Except.error e
    | Except.ok merged =>
      match st.old_functions with
      | none => Except.error BuildErr.noFunctionSection
      | some old_functions =>
        match st.old_type_count with
        | none => Except.error BuildErr.noTypeSection
        | some old_type_count =>
          Except.ok
            { start_fn_idx := st.start_fn_idx
              data := merged
              old_function_count := old_functions.length
              old_type_count := old_type_count
              import_function_count := st.import_function_count.getD 0 }

/-- Whether an `Except` is an error (used to state "the build fails"). -/
def isError : Except BuildErr RelevantInfo → Bool
  | Except.error _ => true
  | Except.ok _ => false

/-- The compression decision of `reencode_with_unpacker` (`main.rs`): the
packed bytes are kept only when they are strictly smaller than the merged
data (`if info.data.data.len() <= packed_data.len() { None }`) and the
transient decompression footprint fits one page (`else if MEM_SIZE <
packed.len() + CONTEXT_SIZE + data.len() { None }`).  `orig` is the merged
data image, `packed` the output of the external `upkr::pack`. -/
def packed_data_plan (ctxSize : Nat) (orig packed : List Nat) : Option (List Nat) :=
  if orig.length ≤ packed.length then none
  else if MEM_SIZE < packed.length + ctxSize + orig.length then none
  else some packed

/-- An emitted data segment (`we::DataSection::active`): memory index, the
`i32.const` value of the offset expression, and the payload bytes. -/
structure OutSeg where
  memory_index : Nat
  offset_expr : Int
  seg_bytes : List Nat
deriving DecidableEq, Repr

/-- `Merger::parse_data_section` from `main.rs`: one active segment on memory
0 — at `COMPRESSED_DATA_OFFSET` (= `ctxSize`) with the packed bytes when
compression is active, else at the merged data's own offset with the merged
bytes. -/
def parse_data_section (ctxSize : Nat) (packed_data : Option (List Nat))
    (merged : DataRec) : List OutSeg :=
  match packed_data with
  | some packed => [⟨0, (ctxSize : Int), packed⟩]
  | none => [⟨0, merged.offset, merged.data⟩]

/-- The branch condition of `Merger::parse_function_body` (`main.rs`): the
plain copy runs when `Some(import_function_count + code.len()) !=
start_fn_idx && packed_data.is_some()`; in EVERY other case the prologue is
spliced ahead of the body.  This function returns `true` exactly when the
splice branch is taken for the body at position `code_len` (bodies already
emitted). -/
def parse_function_body_splices (import_function_count code_len : Nat)
    (start_fn_idx : Option Nat) (packed_is_some : Bool) : Bool :=
  !(decide (some (import_function_count + code_len) ≠ start_fn_idx) && packed_is_some)

/-- A section identifier, as far as `Merger::intersperse_section_hook`
compares it (`we::SectionId::Export` or anything else). -/
inductive SectionId where
  | exportSec
  | otherSec
deriving DecidableEq, Repr

/-- `new_start_fn_idx` as computed in `reencode_with_unpacker`:
`info.start_fn_idx.unwrap_or(import_function_count + old_function_count +
unpacker.functions.count())`. -/
def new_start_fn_idx (import_function_count old_function_count
    unpacker_function_count : Nat) (start_fn_idx : Option Nat) : Nat :=
  start_fn_idx.getD
    (import_function_count + old_function_count + unpacker_function_count)

/-- `Merger::intersperse_section_hook` from `main.rs`: a Start section naming
`new_start` is emitted when `after == Some(SectionId::Export) &&
self.info.start_fn_idx.is_none()`.  The merger state carries
`packed_data` but the hook does not consult it; the parameter is kept to
record that fact. -/
def intersperse_section_hook (packed_is_some : Bool) (start_fn_idx : Option Nat)
    (after : Option SectionId) (new_start : Nat) : Option Nat :=
  if after = some SectionId.exportSec ∧ start_fn_idx = none then some new_start
  else none

/-- Little-endian bytes of a value, as a memory store writes them. -/
def leBytes (n v : Nat) : List Nat :=
  (List.range n).map fun k => v / 256 ^ k % 256

/-- A linear memory: byte value at each address. -/
def Mem : Type := Nat → Nat

/-- The memory effects of the prologue's instruction groups:
the `call`ed decompressor, `memory.copy`, `memory.fill`, and a plain store
(`i64.store` / `i32.store16` / `i32.store` write `bytes.length` bytes). -/
inductive MemOp where
  | unpackCall (ctx dst src : Nat)
  | memCopy (dst src len : Nat)
  | memFill (dst val len : Nat)
  | store (addr : Nat) (bytes : List Nat)
deriving Repr

/-- `Merger::encode_prefix_instrs` from `main.rs`, instruction group by
instruction group, with each group's operand stack resolved:
`unpack(CONTEXT_OFFSET, destination_offset, COMPRESSED_DATA_OFFSET)` (result
dropped); `memory.copy` of `dataLen` bytes from `destination_offset` to
`dataOffset`; `memory.fill` of `[0, dataOffset)` with 0; `memory.fill` of
`[dataOffset + dataLen, MEM_SIZE)` with 0; the two palette `i64.store`s, the
draw-colors `i32.store16` and the mouse `i32.store` (little-endian).
`destination_offset = MEM_SIZE.checked_sub(original_data_len)`, asserted
non-negative in the source; `COMPRESSED_DATA_OFFSET = ctxSize`. -/
def encode_prefix_instrs (ctxSize dataOffset dataLen : Nat) : List MemOp :=
  let destination_offset := MEM_SIZE - dataLen
  [MemOp.unpackCall CONTEXT_OFFSET destination_offset ctxSize,
   MemOp.memCopy dataOffset destination_offset dataLen,
   MemOp.memFill 0 0 dataOffset,
   MemOp.memFill (dataOffset + dataLen) 0 (MEM_SIZE - (dataOffset + dataLen)),
   MemOp.store PALETTE_OFFSET (leBytes 8 (PALETTE_DEFAULT.getD 0 0)),
   MemOp.store (PALETTE_OFFSET + 8) (leBytes 8 (PALETTE_DEFAULT.getD 1 0)),
   MemOp.store DRAW_COLORS_OFFSET (leBytes 2 DRAW_COLORS_DEFAULT),
   MemOp.store MOUSE_XY_OFFSET (leBytes 4 MOUSE_XY_DEFAULT)]

/-- One memory operation's effect.  The `unpackCall` case is modelled from
the spec (the decompressor blob is an external collaborator): the call
writes the decoded image — `image`, the inverse of `pack` applied to the
packed bytes, i.e. the original merged data — at `dst`, and clobbers the
probability-model context window `[ctx, ctx + ctxSize)` with unspecified
scratch bytes (`scratch`); the planner's feasibility condition keeps the two
regions disjoint.  The other cases are the standard bulk-memory semantics:
`memCopy` reads the pre-state (memmove), `memFill` writes `val`, `store`
writes the given bytes. -/
def runOp (image : List Nat) (scratch : Nat → Nat) (ctxSize : Nat) (m : Mem) :
    MemOp → Mem
  | MemOp.unpackCall ctx dst _src => fun i =>
    if dst ≤ i ∧ i < dst + image.length then image.getD (i - dst) 0
    else if ctx ≤ i ∧ i < ctx + ctxSize then scratch i
    else m i
  | MemOp.memCopy dst src len => fun i =>
    if dst ≤ i ∧ i < dst + len then m (src + (i - dst)) else m i
  | MemOp.memFill dst v len => fun i =>
    if dst ≤ i ∧ i < dst + len then v else m i
  | MemOp.store addr bytes => fun i =>
    if addr ≤ i ∧ i < addr + bytes.length then bytes.getD (i - addr) 0 else m i

/-- Running the whole prologue of `encode_prefix_instrs` on an initial
memory, for a merged image `image` placed originally at `dataOffset`. -/
def runPrologue (ctxSize dataOffset : Nat) (image : List Nat)
    (scratch : Nat → Nat) (m : Mem) : Mem :=
  (encode_prefix_instrs ctxSize dataOffset image.length).foldl
    (runOp image scratch ctxSize) m

/-- The memory produced by instantiating a module whose single active data
segment holds `image` at `off`: the image's bytes there, zero elsewhere.
This is the spec-side description of both modules' initial memories (for the
output module, `off = COMPRESSED_DATA_OFFSET` and `image` the packed
bytes). -/
def zeroInitMem (off : Nat) (image : List Nat) : Mem := fun i =>
  if off ≤ i ∧ i < off + image.length then image.getD (i - off) 0 else 0

/-- The defaults the prologue's trailing stores leave in the host-register
window: the palette at `[4, 20)`, the draw colors at `[20, 22)`, the mouse
position at `[26, 30)`. -/
def regDefaults : Mem := fun i =>
  if 26 ≤ i ∧ i < 30 then (leBytes 4 MOUSE_XY_DEFAULT).getD (i - 26) 0
  else if 20 ≤ i ∧ i < 22 then (leBytes 2 DRAW_COLORS_DEFAULT).getD (i - 20) 0
  else if 12 ≤ i ∧ i < 20 then (leBytes 8 (PALETTE_DEFAULT.getD 1 0)).getD (i - 12) 0
  else if 4 ≤ i ∧ i < 12 then (leBytes 8 (PALETTE_DEFAULT.getD 0 0)).getD (i - 4) 0
  else 0

/-- Claim C1 as the spec states it, at a given instance: every byte of
`[0, MEM_SIZE)` after the output module's prologue equals the corresponding
byte of the input module's instantiated memory. -/
def roundTripClaim (ctxSize : Nat) (packed image : List Nat) (off : Nat)
    (scratch : Nat → Nat) : Prop :=
  ∀ i, i < MEM_SIZE →
    runPrologue ctxSize off image scratch (zeroInitMem ctxSize packed) i =
      zeroInitMem off image i

/-- The output-selection logic at the end of `try_main` (`main.rs`):
`reduced_bytes = input.len() as isize - output.len() as isize`; the input is
passed through when `reduced_bytes <= 0`, else the re-encoded bytes are
written. -/
def try_main_select (input reencoded : List Nat) : List Nat :=
  if (input.length : Int) - (reencoded.length : Int) ≤ 0 then input else reencoded

/-- The output dispatch of `try_main` (`main.rs`): a failing build whose
cause chain holds `NoDataError` writes the input through; any other build
error propagates (nothing is written, `none`); on a successful build the
module is re-encoded and `try_main_select` compares sizes. -/
def try_main_output (input : List Nat) (build_result : Except BuildErr RelevantInfo)
    (reencoded : List Nat) : Option (List Nat) :=
  match build_result with
  | Except.error e => if e = BuildErr.noData then some input else none
  | Except.ok _ => some (try_main_select input reencoded)

/-! ## Helper lemmas -/

theorem eval_i32_shape (e : List COp)
    (h : ∀ (n : Int) (rest : List COp), e ≠ COp.i32const n :: COp.endOp :: rest) :
    eval_i32 e = Except.error BuildErr.unsupportedOffset := by
  cases e with
  | nil => rfl
  | cons c rest =>
    cases c with
    | endOp => rfl
    | otherOp => rfl
    | i32const v =>
      cases rest with
      | nil => rfl
      | cons c2 t2 =>
        cases c2 with
        | endOp => exact absurd rfl (h v t2)
        | i32const w => rfl
        | otherOp => rfl

/-! ## Claims C2, C3, C5, C6, C8 -/

/-- C2: the compression planner returns `Packed(bytes)` if and only if both
`len(packed) < len(original merged data)` and
`len(packed) + CONTEXT_SIZE + len(original merged data) ≤ MEM_SIZE` hold; in
every other case it returns `None`.  Confirmed: the decision of
`reencode_with_unpacker` equals that characterization. -/
theorem C2_planner_decision (ctxSize : Nat) (orig packed : List Nat) :
    packed_data_plan ctxSize orig packed =
      if packed.length < orig.length ∧
          packed.length + ctxSize + orig.length ≤ MEM_SIZE then some packed
      else none := by
  unfold packed_data_plan
  split_ifs <;> first | rfl | omega

/-- C3: the claim states a copied body gets the prologue spliced at its top
if and only if it is the input's declared start function AND compression is
active.  The code's branch (`main.rs`, `parse_function_body`) instead takes
the splice branch whenever the body is the start function OR compression is
inactive: at the failing input below, compression is inactive
(`packed_is_some = false`) and the body at position 1 is not the start
function (`start_fn_idx = some 0`, `import_function_count = 0`), yet the
splice branch is taken (first conjunct); with compression active the same
body is copied unchanged (second conjunct). -/
theorem C3_splice_condition_bug :
    parse_function_body_splices 0 1 (some 0) false = true ∧
    parse_function_body_splices 0 1 (some 0) true = false := by decide

/-- C5: the re-encoded data section holds exactly one active segment — on
memory 0 at `COMPRESSED_DATA_OFFSET` (= `ctxSize`) with exactly the packed
bytes when compression is active, else the merged original bytes at the
merged data's original offset.  Confirmed. -/
theorem C5_data_section (ctxSize : Nat) (merged : DataRec) :
    (∀ packed : List Nat,
        (parse_data_section ctxSize (some packed) merged).length = 1 ∧
        parse_data_section ctxSize (some packed) merged =
          [{ memory_index := 0, offset_expr := (ctxSize : Int), seg_bytes := packed }]) ∧
    (parse_data_section ctxSize none merged).length = 1 ∧
    parse_data_section ctxSize none merged =
      [{ memory_index := 0, offset_expr := merged.offset, seg_bytes := merged.data }] :=
  ⟨fun _ => ⟨rfl, rfl⟩, rfl, rfl⟩

/-- C6: the claim states a new Start section is emitted after the Export
section if and only if compression is active AND the input had no start
function.  The code (`main.rs`, `intersperse_section_hook`) never consults
`packed_data`: with compression inactive and no input start function it
still emits the Start section, naming
`import_function_count + old_function_count + unpacker_function_count`
(first conjunct: `2 + 3 + 4 = 9`); when the input already had a Start
section, none is emitted (second conjunct, as the claim also says). -/
theorem C6_hook_bug :
    intersperse_section_hook false none (some SectionId.exportSec)
        (new_start_fn_idx 2 3 4 none) = some 9 ∧
    intersperse_section_hook true (some 5) (some SectionId.exportSec) 11 = none := by
  decide

/-- C8 (amended): the builder performs no Global-section processing at all —
every Global section payload, whatever globals it holds, is accepted with
the state unchanged, and nothing about the globals is recorded.  (The
claim's `MultipleMutableGlobals` check exists only in the spec's text; the
Global section falls into `add_payload`'s wildcard arm.) -/
theorem C8_global_ignored (st : RelevantInfoBuilder) (gs : List GlobalRec) :
    add_payload st (Payload.globalSection gs) = Except.ok st := rfl

/-- C8 counterexample: a Global section with two mutable globals, the first
not even a 32-bit integer, is accepted unchanged — the builder does not fail
with `MultipleMutableGlobals` as the claim states. -/
theorem C8_counterexample :
    add_payload RelevantInfoBuilder.new
        (Payload.globalSection [⟨true, false, 7⟩, ⟨true, true, 9⟩]) =
      Except.ok RelevantInfoBuilder.new := rfl

/-! ## Claim C9 -/

/-- C9 (amended): for every data segment encountered in the data section,
a non-active segment is silently skipped (nothing recorded, no failure);
an active segment on a non-zero memory index fails with `Unsupported`; an
active segment on memory 0 whose offset expression is not exactly
`i32.const N; end` fails with `UnsupportedOffset`; and an active segment on
memory 0 with offset expression `i32.const N; end` is recorded at offset
`N`.  (The claim's "non-active data segments fail" is refuted by
`C9_counterexample`: the source's `let ... else { continue; }` skips
them.) -/
theorem C9_data_segment_handling :
    (∀ (acc : List DataRec) (bs : List Nat),
        add_data_segment acc ⟨DataSegKind.passiveSeg, bs⟩ = Except.ok acc) ∧
    (∀ (acc : List DataRec) (m : Nat) (e : List COp) (bs : List Nat), m ≠ 0 →
        add_data_segment acc ⟨DataSegKind.activeSeg m e, bs⟩ =
          Except.error BuildErr.unsupported) ∧
    (∀ (acc : List DataRec) (e : List COp) (bs : List Nat),
        (∀ (n : Int) (rest : List COp), e ≠ COp.i32const n :: COp.endOp :: rest) →
        add_data_segment acc ⟨DataSegKind.activeSeg 0 e, bs⟩ =
          Except.error BuildErr.unsupportedOffset) ∧
    (∀ (acc : List DataRec) (n : Int) (rest : List COp) (bs : List Nat),
        add_data_segment acc
            ⟨DataSegKind.activeSeg 0 (COp.i32const n :: COp.endOp :: rest), bs⟩ =
          Except.ok (acc ++ [⟨n, bs⟩])) := by
  refine ⟨fun _ _ => rfl, ?_, ?_, fun _ _ _ _ => rfl⟩
  · intro acc m e bs hm
    simp [add_data_segment, hm]
  · intro acc e bs hsh
    simp [add_data_segment, eval_i32_shape e hsh]

/-- C9 witness: the amended theorem at concrete inputs — memory index 1
fails with `Unsupported`; an offset expression that is not
`i32.const N; end` fails with `UnsupportedOffset`. -/
theorem C9_data_segment_handling_witness :
    add_data_segment [] ⟨DataSegKind.activeSeg 1 [COp.i32const 0, COp.endOp], [5]⟩ =
      Except.error BuildErr.unsupported ∧
    add_data_segment [] ⟨DataSegKind.activeSeg 0 [COp.otherOp], [5]⟩ =
      Except.error BuildErr.unsupportedOffset :=
  ⟨C9_data_segment_handling.2.1 [] 1 [COp.i32const 0, COp.endOp] [5] (by decide),
   C9_data_segment_handling.2.2.1 [] [COp.otherOp] [5]
     (by intro n rest h; simp at h)⟩

/-- C9 counterexample: a passive (non-active) data segment is accepted
without any failure — the data-section payload holding only this segment
leaves the builder state unchanged, refuting the claim that the builder
fails on non-active segments. -/
theorem C9_counterexample :
    add_payload RelevantInfoBuilder.new
        (Payload.dataSection [⟨DataSegKind.passiveSeg, [1, 2]⟩]) =
      Except.ok RelevantInfoBuilder.new := rfl

/-! ## Claim C10 -/

/-- C10: for every input module with at least one recorded data segment, the
build fails when no function section was seen or when no type section was
seen; a missing import section is not an error and yields
`import_function_count = 0` (with everything else present and the segments
mergeable, the build succeeds and the count is 0).  Confirmed. -/
theorem C10_build_requirements :
    (∀ st : RelevantInfoBuilder, st.data ≠ [] → st.old_functions = none →
        isError st.build = true) ∧
    (∀ st : RelevantInfoBuilder, st.data ≠ [] → st.old_type_count = none →
        isError st.build = true) ∧
    (∀ (st : RelevantInfoBuilder) (fs : List Nat) (t : Nat) (merged : DataRec),
        st.old_functions = some fs → st.old_type_count = some t →
        st.import_function_count = none → st.data ≠ [] →
        mergeSegs st.data = Except.ok merged →
        st.build = Except.ok ⟨st.start_fn_idx, merged, fs.length, t, 0⟩) := by
  refine ⟨?_, ?_, ?_⟩
  · intro st hd hf
    cases hdata : st.data with
    | nil => exact absurd hdata hd
    | cons d ds =>
      cases hm : mergeSegs st.data with
      | error e =>
        rw [hdata] at hm
        simp [RelevantInfoBuilder.build, hdata, hm, isError]
      | ok merged =>
        rw [hdata] at hm
        simp [RelevantInfoBuilder.build, hdata, hm, hf, isError]
  · intro st hd ht
    cases hdata : st.data with
    | nil => exact absurd hdata hd
    | cons d ds =>
      cases hm : mergeSegs st.data with
      | error e =>
        rw [hdata] at hm
        simp [RelevantInfoBuilder.build, hdata, hm, isError]
      | ok merged =>
        rw [hdata] at hm
        cases hf : st.old_functions with
        | none => simp [RelevantInfoBuilder.build, hdata, hm, hf, isError]
        | some fs => simp [RelevantInfoBuilder.build, hdata, hm, hf, ht, isError]
  · intro st fs t merged hf ht hi hd hm
    cases hdata : st.data with
    | nil => exact absurd hdata hd
    | cons d ds =>
      rw [hdata] at hm
      simp [RelevantInfoBuilder.build, hdata, hm, hf, ht, hi]

/-- C10 witness: the theorem at concrete builder states — one segment and no
function section fails; one segment, an empty function list and no type
section fails; everything present but no import section succeeds with
`import_function_count = 0`. -/
theorem C10_build_requirements_witness :
    isError (RelevantInfoBuilder.build ⟨none, [⟨0, [1]⟩], none, none, none, none⟩) = true ∧
    isError (RelevantInfoBuilder.build ⟨none, [⟨0, [1]⟩], some [], none, none, none⟩) = true ∧
    RelevantInfoBuilder.build ⟨some 7, [⟨0, [1]⟩], some [3], some 2, none, none⟩ =
      Except.ok ⟨some 7, ⟨0, [1]⟩, 1, 2, 0⟩ :=
  ⟨C10_build_requirements.1 ⟨none, [⟨0, [1]⟩], none, none, none, none⟩ (by simp) rfl,
   C10_build_requirements.2.1 ⟨none, [⟨0, [1]⟩], some [], none, none, none⟩ (by simp) rfl,
   C10_build_requirements.2.2 ⟨some 7, [⟨0, [1]⟩], some [3], some 2, none, none⟩
     [3] 2 ⟨0, [1]⟩ rfl rfl rfl (by simp) rfl⟩

/-! ## Claim C4 -/

/-- C4 (amended): when `NoData` triggers, the tool writes bytes identical to
the input; when the planner declines, the tool writes the input back
provided the re-encoded module is not strictly smaller than the input — the
selection at the end of `try_main` is purely the byte-length comparison
`reduced_bytes <= 0`, not the planner's decision. -/
theorem C4_passthrough (input reencoded rc : List Nat) (info : RelevantInfo) :
    try_main_output input (Except.error BuildErr.noData) rc = some input ∧
    (input.length ≤ reencoded.length →
      try_main_output input (Except.ok info) reencoded = some input) := by
  constructor
  · rfl
  · intro h
    simp only [try_main_output, try_main_select]
    rw [if_pos (by omega)]

/-- C4 witness: the amended theorem at concrete inputs — a `NoData` build
passes the 2-byte input through, and a successful build whose re-encoding
grew to 3 bytes also passes it through. -/
theorem C4_passthrough_witness :
    try_main_output [1, 2] (Except.error BuildErr.noData) [] = some [1, 2] ∧
    try_main_output [1, 2] (Except.ok ⟨none, ⟨0, [1]⟩, 0, 0, 0⟩) [3, 4, 5] =
      some [1, 2] :=
  ⟨(C4_passthrough [1, 2] [3, 4, 5] [] ⟨none, ⟨0, [1]⟩, 0, 0, 0⟩).1,
   (C4_passthrough [1, 2] [3, 4, 5] [] ⟨none, ⟨0, [1]⟩, 0, 0, 0⟩).2 (by decide)⟩

/-- C4 counterexample: the planner declines (a 1-byte merged image packs to
2 bytes, so `packed_data` is `None` for every `CONTEXT_SIZE`; shown here at
0), yet when the re-encoded module happens to be smaller than the input
(1 byte against 4 — reachable in the real pipeline because the re-encoder
writes canonical LEB128 where the input may carry padded encodings, e.g. a
three-byte Data Count), `try_main` writes the re-encoded bytes `[7]`, not
the input `[0, 0, 0, 0]`: the claim's "declines → byte-identical output"
does not hold of the selection logic. -/
theorem C4_counterexample :
    packed_data_plan 0 [1] [2, 3] = none ∧
    try_main_output [0, 0, 0, 0] (Except.ok ⟨none, ⟨0, [1]⟩, 0, 0, 0⟩) [7] =
      some [7] := by
  constructor
  · rfl
  · simp only [try_main_output, try_main_select]
    rw [if_neg (by decide)]

/-! ## Claim C7: merge lemmas -/

theorem sortSegs_sorted (l : List DataRec) : List.Sorted segLE (sortSegs l) :=
  List.sorted_insertionSort segLE l

theorem mem_sortSegs {x : DataRec} {l : List DataRec} : x ∈ sortSegs l ↔ x ∈ l :=
  List.mem_insertionSort (r := segLE)

theorem replicate_zero_getElem? (n m : Nat) (h : m < n) :
    (List.replicate n (0 : Nat))[m]? = some 0 := by
  rw [List.getElem?_replicate]
  simp [h]

theorem mergeFold_error_in_range :
    ∀ (rest : List DataRec) (off : Int) (acc : List Nat) (e : BuildErr),
      (∀ s ∈ rest, 0 ≤ s.offset - off ∧ s.offset - off < 2 ^ 31) →
      mergeFold off acc rest = Except.error e → e = BuildErr.overlap := by
  intro rest
  induction rest with
  | nil => intro off acc e _ h; simp [mergeFold] at h
  | cons s rest ih =>
    intro off acc e hin h
    simp only [mergeFold] at h
    rw [if_pos (hin s (List.mem_cons_self s rest))] at h
    by_cases hle : acc.length ≤ (s.offset - off).toNat
    · rw [if_pos hle] at h
      exact ih _ _ _ (fun x hx => hin x (List.mem_cons_of_mem s hx)) h
    · rw [if_neg hle] at h
      exact (Except.error.inj h).symm

theorem mergeFold_ok_in_range :
    ∀ (rest : List DataRec) (off : Int) (acc img : List Nat),
      mergeFold off acc rest = Except.ok img →
      ∀ s ∈ rest, 0 ≤ s.offset - off ∧ s.offset - off < 2 ^ 31 := by
  intro rest
  induction rest with
  | nil => intro off acc img _ s hs; cases hs
  | cons s rest ih =>
    intro off acc img h
    simp only [mergeFold] at h
    by_cases hg : 0 ≤ s.offset - off ∧ s.offset - off < 2 ^ 31
    · rw [if_pos hg] at h
      by_cases hle : acc.length ≤ (s.offset - off).toNat
      · rw [if_pos hle] at h
        intro x hx
        rcases List.mem_cons.mp hx with rfl | hmem
        · exact hg
        · exact ih _ _ _ h x hmem
      · rw [if_neg hle] at h
        cases h
    · rw [if_neg hg] at h
      cases h

theorem mergeFold_ok_spec :
    ∀ (rest : List DataRec) (off : Int) (acc img : List Nat),
      mergeFold off acc rest = Except.ok img →
      (∃ t, img = acc ++ t) ∧
      ∀ s ∈ rest, ∀ i, i < s.data.length →
        img[(s.offset - off).toNat + i]? = s.data[i]? := by
  intro rest
  induction rest with
  | nil =>
    intro off acc img h
    simp only [mergeFold] at h
    cases h
    exact ⟨⟨[], by simp⟩, by simp⟩
  | cons s rest ih =>
    intro off acc img h
    simp only [mergeFold] at h
    by_cases hg : 0 ≤ s.offset - off ∧ s.offset - off < 2 ^ 31
    swap
    · rw [if_neg hg] at h
      cases h
    rw [if_pos hg] at h
    by_cases hle : acc.length ≤ (s.offset - off).toNat
    · rw [if_pos hle] at h
      obtain ⟨⟨t, ht⟩, hrest⟩ := ih _ _ _ h
      refine ⟨⟨List.replicate ((s.offset - off).toNat - acc.length) 0 ++ s.data ++ t, by
        rw [ht]; simp [List.append_assoc]⟩, ?_⟩
      intro s' hs' i hi
      rcases List.mem_cons.mp hs' with rfl | hmem
      · have hA : (acc ++ List.replicate ((s'.offset - off).toNat - acc.length) 0).length
            = (s'.offset - off).toNat := by
          simp only [List.length_append, List.length_replicate]
          omega
        rw [ht]
        rw [List.getElem?_append_left (by
          simp only [List.length_append, List.length_replicate]
          omega)]
        rw [List.getElem?_append_right (by
          simp only [List.length_append, List.length_replicate]
          omega)]
        rw [hA, Nat.add_sub_cancel_left]
      · exact hrest s' hmem i hi
    · rw [if_neg hle] at h
      cases h

theorem mergeFold_ok_chain :
    ∀ (rest : List DataRec) (off : Int) (p : DataRec) (acc img : List Nat),
      acc.length = (p.offset - off).toNat + p.data.length →
      off ≤ p.offset →
      List.Sorted segLE (p :: rest) →
      mergeFold off acc rest = Except.ok img →
      List.Chain' (fun a b => a.offset + (a.data.length : Int) ≤ b.offset) (p :: rest) := by
  intro rest
  induction rest with
  | nil => intro off p acc img _ _ _ _; simp
  | cons s rest ih =>
    intro off p acc img hacc hop hsort h
    simp only [mergeFold] at h
    by_cases hg : 0 ≤ s.offset - off ∧ s.offset - off < 2 ^ 31
    swap
    · rw [if_neg hg] at h
      cases h
    rw [if_pos hg] at h
    by_cases hle : acc.length ≤ (s.offset - off).toNat
    · rw [if_pos hle] at h
      have hps : p.offset ≤ s.offset :=
        List.rel_of_sorted_cons hsort s (List.mem_cons_self s rest)
      rw [List.chain'_cons]
      constructor
      · omega
      · exact ih off s _ img (by
          simp only [List.length_append, List.length_replicate]
          omega) (le_trans hop hps) hsort.of_cons h
    · rw [if_neg hle] at h
      cases h

theorem mergeFold_ok_gap :
    ∀ (rest : List DataRec) (off : Int) (p : DataRec) (acc img : List Nat),
      acc.length = (p.offset - off).toNat + p.data.length →
      mergeFold off acc rest = Except.ok img →
      ∀ (k : Nat) (A B : DataRec), (p :: rest)[k]? = some A →
        (p :: rest)[k + 1]? = some B →
        ∀ j, (A.offset - off).toNat + A.data.length ≤ j →
          j < (B.offset - off).toNat → img[j]? = some 0 := by
  intro rest
  induction rest with
  | nil =>
    intro off p acc img _ _ k A B _ hB j _ _
    rcases k with _ | k <;> simp at hB
  | cons s rest ih =>
    intro off p acc img hacc h k A B hA hB j hj1 hj2
    simp only [mergeFold] at h
    by_cases hg : 0 ≤ s.offset - off ∧ s.offset - off < 2 ^ 31
    swap
    · rw [if_neg hg] at h
      cases h
    rw [if_pos hg] at h
    by_cases hle : acc.length ≤ (s.offset - off).toNat
    · rw [if_pos hle] at h
      rcases k with _ | k
      · simp only [List.getElem?_cons_zero, Option.some.injEq] at hA
        simp only [List.getElem?_cons_succ, List.getElem?_cons_zero,
          Option.some.injEq] at hB
        subst hA
        subst hB
        obtain ⟨⟨t, ht⟩, _⟩ := mergeFold_ok_spec rest off _ img h
        rw [ht]
        rw [List.getElem?_append_left (by
          simp only [List.length_append, List.length_replicate]
          omega)]
        rw [List.getElem?_append_left (by
          simp only [List.length_append, List.length_replicate]
          omega)]
        rw [List.getElem?_append_right (by omega)]
        exact replicate_zero_getElem? _ _ (by omega)
      · rw [List.getElem?_cons_succ] at hA hB
        exact ih off s _ img (by
          simp only [List.length_append, List.length_replicate]
          omega) h k A B hA hB j hj1 hj2
    · rw [if_neg hle] at h
      cases h

/-- C7 (amended): for every segment list accepted by the builder's merge,
the merged image's offset is the smallest segment offset (a lower bound
attained by some segment); any two consecutive segments of the sorted list
satisfy `A.offset + A.length ≤ B.offset`; each segment's bytes appear in
the image at position `segment.offset - first.offset`; every position in a
gap between two consecutive segments holds a zero byte; and every accepted
segment lies within `i32` range of the image's offset
(`s.offset - off < 2^31` — the `as usize` cast is exact only there).  The
failure half holds only under that range caveat: when all segment offsets
lie within one `i32` span of each other, an overlapping consecutive pair
makes the build fail with the overlap error; when some segment's distance
from the first offset reaches `2^31`, the program instead panics
(`i32Panic`, see `mergeFold` and `C7_counterexample`) before any error is
returned. -/
theorem C7_merge_spec :
    (∀ (segs : List DataRec) (off : Int) (img : List Nat),
        mergeSegs segs = Except.ok ⟨off, img⟩ →
        (∀ s ∈ segs, off ≤ s.offset) ∧
        (∃ s ∈ segs, s.offset = off) ∧
        List.Chain' (fun a b => a.offset + (a.data.length : Int) ≤ b.offset)
          (sortSegs segs) ∧
        (∀ s ∈ segs, ∀ i, i < s.data.length →
            img[(s.offset - off).toNat + i]? = s.data[i]?) ∧
        (∀ (k : Nat) (A B : DataRec), (sortSegs segs)[k]? = some A →
            (sortSegs segs)[k + 1]? = some B →
            ∀ j, (A.offset - off).toNat + A.data.length ≤ j →
              j < (B.offset - off).toNat → img[j]? = some 0) ∧
        (∀ s ∈ segs, s.offset - off < 2 ^ 31)) ∧
    (∀ (segs : List DataRec) (A B : DataRec) (k : Nat),
        (∀ s ∈ segs, ∀ t ∈ segs, s.offset - t.offset < 2 ^ 31) →
        (sortSegs segs)[k]? = some A → (sortSegs segs)[k + 1]? = some B →
        B.offset < A.offset + (A.data.length : Int) →
        mergeSegs segs = Except.error BuildErr.overlap) := by
  constructor
  · intro segs off img h
    simp only [mergeSegs] at h
    cases hs : sortSegs segs with
    | nil => rw [hs] at h; simp [mergeSorted] at h
    | cons first rest =>
      rw [hs] at h
      simp only [mergeSorted] at h
      cases hm : mergeFold first.offset first.data rest with
      | error e => rw [hm] at h; cases h
      | ok bytes =>
        rw [hm] at h
        obtain ⟨rfl, rfl⟩ := DataRec.mk.inj (Except.ok.inj h)
        have hsorted : List.Sorted segLE (first :: rest) := by
          have h0 := sortSegs_sorted segs
          rw [hs] at h0
          exact h0
        have hmemiff : ∀ x : DataRec, x ∈ first :: rest ↔ x ∈ segs := by
          intro x
          rw [← hs]
          exact mem_sortSegs
        refine ⟨?_, ?_, ?_, ?_, ?_, ?_⟩
        · intro s hsm
          rcases List.mem_cons.mp ((hmemiff s).mpr hsm) with rfl | hmem
          · exact le_refl _
          · exact List.rel_of_sorted_cons hsorted s hmem
        · exact ⟨first, (hmemiff first).mp (List.mem_cons_self first rest), rfl⟩
        · exact mergeFold_ok_chain rest first.offset first first.data bytes
            (by simp) (le_refl _) hsorted hm
        · intro s hsm i hi
          rcases List.mem_cons.mp ((hmemiff s).mpr hsm) with rfl | hmem
          · have h0 : (s.offset - s.offset).toNat = 0 := by simp
            rw [h0, Nat.zero_add]
            obtain ⟨⟨t, ht⟩, _⟩ := mergeFold_ok_spec rest s.offset s.data bytes hm
            rw [ht, List.getElem?_append_left hi]
          · exact (mergeFold_ok_spec rest first.offset first.data bytes hm).2 s hmem i hi
        · intro k A B hA hB j hj1 hj2
          exact mergeFold_ok_gap rest first.offset first first.data bytes
            (by simp) hm k A B hA hB j hj1 hj2
        · intro s hsm
          rcases List.mem_cons.mp ((hmemiff s).mpr hsm) with rfl | hmem
          · omega
          · exact (mergeFold_ok_in_range rest first.offset first.data bytes hm
              s hmem).2
  · intro segs A B k hspan hA hB hover
    cases hs : sortSegs segs with
    | nil => rw [hs] at hA; simp at hA
    | cons first rest =>
      rw [hs] at hA hB
      have hsorted : List.Sorted segLE (first :: rest) := by
        have h0 := sortSegs_sorted segs
        rw [hs] at h0
        exact h0
      have hmemiff : ∀ x : DataRec, x ∈ first :: rest ↔ x ∈ segs := by
        intro x
        rw [← hs]
        exact mem_sortSegs
      have hin : ∀ s ∈ rest, 0 ≤ s.offset - first.offset ∧
          s.offset - first.offset < 2 ^ 31 := by
        intro s hsm
        have h1 : first.offset ≤ s.offset := List.rel_of_sorted_cons hsorted s hsm
        have h2 := hspan s ((hmemiff s).mp (List.mem_cons_of_mem first hsm))
          first ((hmemiff first).mp (List.mem_cons_self first rest))
        exact ⟨by omega, h2⟩
      simp only [mergeSegs]
      rw [hs]
      simp only [mergeSorted]
      cases hm : mergeFold first.offset first.data rest with
      | error e =>
        have he : e = BuildErr.overlap :=
          mergeFold_error_in_range rest first.offset first.data e hin hm
        rw [he]
      | ok bytes =>
        exfalso
        have hchain := mergeFold_ok_chain rest first.offset first first.data bytes
          (by simp) (le_refl _) hsorted hm
        have hklen : k + 1 < (first :: rest).length := (List.getElem?_eq_some.mp hB).1
        have hrel := List.chain'_iff_get.mp hchain k (by
          simp only [List.length_cons] at hklen ⊢
          omega)
        rw [List.get_eq_getElem, List.get_eq_getElem] at hrel
        have hAv := (List.getElem?_eq_some.mp hA).2
        have hBv := (List.getElem?_eq_some.mp hB).2
        rw [hAv, hBv] at hrel
        omega

/-- C7 witness: for the unsorted pair of segments `(10, [1,2])`, `(5, [3])`
the merge succeeds as `(5, [3,0,0,0,0,1,2])`; its offset 5 bounds the other
segment's offset 10, byte `1` of the second segment sits at position
`10 - 5 = 5`, position 2 lies in the gap and holds 0, the second segment's
offset is within `i32` range of the image offset; and the overlapping pair
`(0, [1,2])`, `(1, [4])` — whose offsets lie within one `i32` span — fails
with the overlap error. -/
theorem C7_merge_spec_witness :
    (5 : Int) ≤ 10 ∧
    ([3, 0, 0, 0, 0, 1, 2] : List Nat)[5]? = some 1 ∧
    ([3, 0, 0, 0, 0, 1, 2] : List Nat)[2]? = some 0 ∧
    (10 : Int) - 5 < 2 ^ 31 ∧
    mergeSegs [⟨0, [1, 2]⟩, ⟨1, [4]⟩] = Except.error BuildErr.overlap := by
  refine ⟨?_, ?_, ?_, ?_, ?_⟩
  · exact (C7_merge_spec.1 [⟨10, [1, 2]⟩, ⟨5, [3]⟩] 5 [3, 0, 0, 0, 0, 1, 2] rfl).1
      ⟨10, [1, 2]⟩ (by decide)
  · exact (C7_merge_spec.1 [⟨10, [1, 2]⟩, ⟨5, [3]⟩] 5 [3, 0, 0, 0, 0, 1, 2] rfl).2.2.2.1
      ⟨10, [1, 2]⟩ (by decide) 0 (by decide)
  · exact (C7_merge_spec.1 [⟨10, [1, 2]⟩, ⟨5, [3]⟩] 5 [3, 0, 0, 0, 0, 1, 2] rfl).2.2.2.2.1
      0 ⟨5, [3]⟩ ⟨10, [1, 2]⟩ (by decide) (by decide) 2 (by decide) (by decide)
  · exact (C7_merge_spec.1 [⟨10, [1, 2]⟩, ⟨5, [3]⟩] 5 [3, 0, 0, 0, 0, 1, 2] rfl).2.2.2.2.2
      ⟨10, [1, 2]⟩ (by decide)
  · exact C7_merge_spec.2 [⟨0, [1, 2]⟩, ⟨1, [4]⟩] ⟨0, [1, 2]⟩ ⟨1, [4]⟩ 0
      (by decide) (by decide) (by decide) (by decide)

/-- C7 counterexample: the claim as stated fails at `i32`-extreme offsets,
all reachable via `i32.const` offset expressions.  In the sorted list
`(-2^31, [1])`, `(2^31-2, [1,1])`, `(2^31-1, [9])` the last two segments
are consecutive and overlap (`(2^31-2) + 2 > 2^31-1`), so the claim says
the build fails with the overlap error; instead the program panics while
processing the second segment — `(data.offset - output_data.offset)` is
`2^32-2`, overflowing the `i32` subtraction (debug) or wrapping to a
negative value whose `as usize` cast makes `Vec::resize` abort with a
capacity overflow (release) — modelled as the `i32Panic` outcome, which is
not the overlap error. -/
theorem C7_counterexample :
    (sortSegs [⟨-2147483648, [1]⟩, ⟨2147483646, [1, 1]⟩, ⟨2147483647, [9]⟩])[1]? =
      some ⟨2147483646, [1, 1]⟩ ∧
    (sortSegs [⟨-2147483648, [1]⟩, ⟨2147483646, [1, 1]⟩, ⟨2147483647, [9]⟩])[2]? =
      some ⟨2147483647, [9]⟩ ∧
    (2147483647 : Int) < 2147483646 + 2 ∧
    mergeSegs [⟨-2147483648, [1]⟩, ⟨2147483646, [1, 1]⟩, ⟨2147483647, [9]⟩] =
      Except.error BuildErr.i32Panic := by
  exact ⟨by decide, by decide, by decide, rfl⟩

/-! ## Claim C1 -/

/-- C1 (amended): with compression applied, running the output module's
prologue — starting from that module's instantiated memory, whose single
data segment holds the packed bytes at `COMPRESSED_DATA_OFFSET = ctxSize` —
reproduces the input module's instantiated memory (`image` at `off`, zero
elsewhere, which is what the input module's start-function sequence leaves
under the claim's own assumption) at every byte of `[0, MEM_SIZE)` EXCEPT
the host-register windows `[4, 22)` and `[26, 30)`, which instead hold the
palette / draw-colors / mouse defaults written by the prologue's trailing
stores (`regDefaults`).  The hypotheses are the conditions under which the
code reaches and runs the prologue: the original image lies inside the page
(the source asserts `destination_offset >= 0` and emits the trailing
`memory.fill` with length `MEM_SIZE - original_data_end`), and the planner's
feasibility bound holds.  `scratch` is an arbitrary clobbering of the
decompressor's context window; the result does not depend on it. -/
theorem C1_prologue_memory (ctxSize : Nat) (packed image : List Nat) (off : Nat)
    (scratch : Nat → Nat)
    (hfit : off + image.length ≤ MEM_SIZE)
    (hfeas : ctxSize + packed.length + image.length ≤ MEM_SIZE) :
    ∀ i, i < MEM_SIZE →
      runPrologue ctxSize off image scratch (zeroInitMem ctxSize packed) i =
        if (4 ≤ i ∧ i < 22) ∨ (26 ≤ i ∧ i < 30) then regDefaults i
        else zeroInitMem off image i := by
  intro i hi
  have hl4 : (leBytes 4 MOUSE_XY_DEFAULT).length = 4 := by simp [leBytes]
  have hl2 : (leBytes 2 DRAW_COLORS_DEFAULT).length = 2 := by simp [leBytes]
  have hl8a : (leBytes 8 (PALETTE_DEFAULT.getD 0 0)).length = 8 := by simp [leBytes]
  have hl8b : (leBytes 8 (PALETTE_DEFAULT.getD 1 0)).length = 8 := by simp [leBytes]
  simp only [runPrologue, encode_prefix_instrs, List.foldl, runOp, regDefaults,
    zeroInitMem, hl4, hl2, hl8a, hl8b, PALETTE_OFFSET, DRAW_COLORS_OFFSET,
    MOUSE_XY_OFFSET, CONTEXT_OFFSET, Nat.zero_add,
    show (4 : Nat) + 8 = 12 from rfl, show (12 : Nat) + 8 = 20 from rfl,
    show (26 : Nat) + 4 = 30 from rfl, show (20 : Nat) + 2 = 22 from rfl]
  by_cases hr1 : 26 ≤ i ∧ i < 30
  · rw [if_pos hr1, if_pos (Or.inr hr1), if_pos hr1]
  · by_cases hr2 : 20 ≤ i ∧ i < 22
    · rw [if_neg hr1, if_pos hr2, if_pos (Or.inl (show 4 ≤ i ∧ i < 22 by omega)),
        if_neg hr1, if_pos hr2]
    · by_cases hr3 : 12 ≤ i ∧ i < 20
      · rw [if_neg hr1, if_neg hr2, if_pos hr3,
          if_pos (Or.inl (show 4 ≤ i ∧ i < 22 by omega)),
          if_neg hr1, if_neg hr2, if_pos hr3]
      · by_cases hr4 : 4 ≤ i ∧ i < 12
        · rw [if_neg hr1, if_neg hr2, if_neg hr3, if_pos hr4,
            if_pos (Or.inl (show 4 ≤ i ∧ i < 22 by omega)),
            if_neg hr1, if_neg hr2, if_neg hr3, if_pos hr4]
        · have hnr : ¬((4 ≤ i ∧ i < 22) ∨ (26 ≤ i ∧ i < 30)) := by omega
          rw [if_neg hr1, if_neg hr2, if_neg hr3, if_neg hr4, if_neg hnr]
          by_cases h5 : off + image.length ≤ i
          · rw [if_pos (show off + image.length ≤ i ∧
                i < off + image.length + (MEM_SIZE - (off + image.length)) by omega)]
            rw [if_neg (show ¬(off ≤ i ∧ i < off + image.length) by omega)]
          · by_cases h6 : i < off
            · rw [if_neg (show ¬(off + image.length ≤ i ∧
                  i < off + image.length + (MEM_SIZE - (off + image.length))) by omega)]
              rw [if_pos (show 0 ≤ i ∧ i < off by omega)]
              rw [if_neg (show ¬(off ≤ i ∧ i < off + image.length) by omega)]
            · rw [if_neg (show ¬(off + image.length ≤ i ∧
                  i < off + image.length + (MEM_SIZE - (off + image.length))) by omega)]
              rw [if_neg (show ¬(0 ≤ i ∧ i < off) by omega)]
              rw [if_pos (show off ≤ i ∧ i < off + image.length by omega)]
              rw [if_pos (show MEM_SIZE - image.length ≤ MEM_SIZE - image.length + (i - off) ∧
                MEM_SIZE - image.length + (i - off) < MEM_SIZE - image.length + image.length by
                  omega)]
              rw [if_pos (show off ≤ i ∧ i < off + image.length by omega)]
              rw [Nat.add_sub_cancel_left]

/-- C1 witness: the amended theorem at a concrete instance — context size 2,
packed bytes `[5]`, image `[9, 8]` at offset 100, zero scratch.  At byte 20
(inside the register window) the prologue memory is what the theorem's
right-hand side prescribes. -/
theorem C1_prologue_memory_witness :
    runPrologue 2 100 [9, 8] (fun _ => 0) (zeroInitMem 2 [5]) 20 =
      if (4 ≤ 20 ∧ 20 < 22) ∨ (26 ≤ 20 ∧ 20 < 30) then regDefaults 20
      else zeroInitMem 100 [9, 8] 20 :=
  C1_prologue_memory 2 [5] [9, 8] 100 (fun _ => 0) (by decide) (by decide) 20
    (by decide)

/-- C1 counterexample: the claim as stated — byte-for-byte equality on all
of `[0, MEM_SIZE)` — fails.  Compression is applied (the planner accepts:
the 4-byte image `[66, 66, 66, 66]` at offset 1024 packs to the 1-byte
`[7]`, and `1 + 4096 + 4 ≤ MEM_SIZE`), yet at byte `20 < MEM_SIZE` the
output module's prologue leaves `3` (the low byte of `DRAW_COLORS_DEFAULT =
0x1203` written by its `i32.store16`), while the input module's
instantiation leaves `0` there. -/
theorem C1_counterexample :
    packed_data_plan 4096 [66, 66, 66, 66] [7] = some [7] ∧
    20 < MEM_SIZE ∧
    runPrologue 4096 1024 [66, 66, 66, 66] (fun _ => 0) (zeroInitMem 4096 [7]) 20 = 3 ∧
    zeroInitMem 1024 [66, 66, 66, 66] 20 = 0 := by
  refine ⟨by decide, by decide, by decide, rfl⟩
